import Mathlib

/-!
ESP32 CAN-to-UART bridge (`esp32_can_bridge/src/main.cpp`).

A shallow embedding of the two entry points of the sketch, `setup()` and
`loop()`, and theorems about the bytes the bridge hands to the serial link.

The sketch talks to three collaborators: the USB debug console (`Serial`),
the UART to the downstream host (`JetsonSerial`) and the TWAI (CAN) driver.
Every call to one of them is recorded as an `Event`; a function of the sketch
is embedded as a function from the values its collaborators return to the
list of events it performs, in program order.  Machine integers are `Nat`
with explicit reductions modulo `2^16` and `2^8` where the source narrows.
A read of `message.data[i]` is a checked read of an 8-element list: a read
outside the array makes the embedded function return `none`.
-/

namespace CanBridge

/-! ## Constants of the sketch and of the driver headers -/

/-- Value of `ESP_OK` in `esp_err.h`. -/
def ESP_OK : Int := 0

/-- Value of `ESP_ERR_TIMEOUT` in `esp_err.h`. -/
def ESP_ERR_TIMEOUT : Int := 0x107

/-- Pin or rate constant `#define TWAI_TX_PIN GPIO_NUM_4`. -/
def TWAI_TX_PIN : Nat := 4

/-- Pin or rate constant `#define TWAI_RX_PIN GPIO_NUM_5`. -/
def TWAI_RX_PIN : Nat := 5

/-- Pin or rate constant `#define ESP_UART_TX_PIN GPIO_NUM_17`. -/
def ESP_UART_TX_PIN : Nat := 17

/-- Pin or rate constant `#define ESP_UART_RX_PIN GPIO_NUM_18`. -/
def ESP_UART_RX_PIN : Nat := 18

/-- Pin or rate constant `#define UART_BAUD_RATE 115200`. -/
def UART_BAUD_RATE : Nat := 115200

/-! ## Data model -/

/-- The fields of `twai_message_t` that the sketch reads: `identifier`
(`uint32_t`), `data_length_code` (`uint8_t`) and `data` (`uint8_t[8]`). -/
structure twai_message_t where
  identifier : Nat
  data_length_code : Nat
  data : List Nat
  deriving DecidableEq

/-- The typing constraints of the C struct: a 32-bit identifier, an 8-bit
length code, and an array of exactly eight bytes. -/
def twai_message_t.wf (m : twai_message_t) : Prop :=
  m.identifier < 2 ^ 32 ∧ m.data_length_code < 256 ∧ m.data.length = 8 ∧
    ∀ b ∈ m.data, b < 256

instance (m : twai_message_t) : Decidable m.wf := by
  unfold twai_message_t.wf; infer_instance

/-- An argument of `Serial.print` / `Serial.println`, kept structured: a
string literal, a number printed with `HEX`, a number printed in decimal, the
string returned by `esp_err_to_name`, or nothing (`Serial.println()`). -/
inductive Printable where
  | text (s : String)
  | hex (n : Nat)
  | dec (n : Nat)
  | errName (code : Int)
  | empty
  deriving DecidableEq

/-- One call made by the sketch to a collaborator, with the value the
collaborator returned where the sketch receives one. -/
inductive Event where
  /-- Call `Serial.begin(baud)` on the USB debug console. -/
  | serialBegin (baud : Nat)
  /-- Call `Serial.print(p)` on the USB debug console. -/
  | serialPrint (p : Printable)
  /-- Call `Serial.println(p)` on the USB debug console. -/
  | serialPrintln (p : Printable)
  /-- Call `JetsonSerial.begin(baud, SERIAL_8N1, rxPin, txPin)`. -/
  | jetsonBegin (baud rxPin txPin : Nat)
  /-- Call `JetsonSerial.println(s)`: text sent on the link to the host. -/
  | jetsonPrintln (s : String)
  /-- Call `JetsonSerial.write(buf, size)` and the count it returned. -/
  | jetsonWrite (buf : List Nat) (size : Nat) (ret : Nat)
  /-- Call `twai_driver_install(...)` and the code it returned. -/
  | twaiDriverInstall (ret : Int)
  /-- Call `twai_start()` and the code it returned. -/
  | twaiStart (ret : Int)
  /-- Call `twai_receive(&message, pdMS_TO_TICKS(ms))` and the code it returned. -/
  | twaiReceive (ms : Nat) (ret : Int)
  /-- Call `delay(ms)`. -/
  | delay (ms : Nat)
  deriving DecidableEq

/-! ## `setup()` -/

/-- What the collaborators answer during `setup()`: how many times the test
`!Serial` of the wait loop held before the console was ready, the code
returned by `twai_driver_install`, and the code returned by `twai_start`
(consulted only if `twai_start` is called). -/
structure SetupEnv where
  serialPolls : Nat
  installResult : Int
  startResult : Int
  deriving DecidableEq

/-- The function `setup()` of the sketch. -/
def setup (e : SetupEnv) : List Event :=
  [Event.serialBegin 115200]
    -- while (!Serial) { delay(10); }
    ++ List.replicate e.serialPolls (Event.delay 10)
    ++ [Event.serialPrintln (.text "ESP32 CAN-to-UART Bridge Starting..."),
        Event.jetsonBegin UART_BAUD_RATE ESP_UART_RX_PIN ESP_UART_TX_PIN,
        Event.serialPrintln (.text "UART for Jetson Nano initialized."),
        Event.jetsonPrintln "ESP32 Connected to Jetson via UART",
        Event.serialPrintln (.text "Initializing TWAI driver..."),
        Event.twaiDriverInstall e.installResult]
    ++ (if e.installResult = ESP_OK then
          [Event.serialPrintln (.text "TWAI Driver installed."),
           Event.serialPrintln (.text "Starting TWAI driver..."),
           Event.twaiStart e.startResult]
            ++ (if e.startResult = ESP_OK then
                  [Event.serialPrintln (.text "TWAI Driver started.")]
                else
                  [Event.serialPrintln (.text "Failed to start TWAI driver.")])
        else
          -- Serial.println("Failed to install TWAI driver."); return;
          [Event.serialPrintln (.text "Failed to install TWAI driver.")])

/-! ## `loop()` -/

/-- The debug loop `for (int i = 0; i < message.data_length_code; i++)
{ Serial.print(message.data[i], HEX); Serial.print(" "); }`, by recursion on
the number `n` of iterations left, `i` being the loop variable.  The read of
`message.data[i]` is checked. -/
def printData (data : List Nat) : Nat → Nat → Option (List Event)
  | 0, _ => some []
  | n + 1, i => do
    let b ← data[i]?
    let rest ← printData data n (i + 1)
    pure (Event.serialPrint (.hex b) :: Event.serialPrint (.text " ") :: rest)

/-- The block of `loop()` that computes `raw_can_data` (a `uint16_t`) from
`message.data_length_code` and `message.data`.  The reads of `message.data`
are checked; `(uint16_t)(message.data[0] << 8) | message.data[1]` casts the
shifted byte to 16 bits, ors the second byte in, and the assignment narrows
the result to 16 bits again. -/
def raw_can_data (message : twai_message_t) : Option Nat :=
  if message.data_length_code ≥ 2 then do
    let d0 ← message.data[0]?
    let d1 ← message.data[1]?
    pure ((((d0 <<< 8) % 65536) ||| d1) % 65536)
  else if message.data_length_code = 1 then do
    let d0 ← message.data[0]?
    pure (d0 % 65536)
  else
    pure 0

/-- The four assignments to `uart_packet[0..3]` (each a `uint8_t`) from the
two `uint16_t` locals `can_id` and `raw_can_data`. -/
def uart_packet (can_id raw : Nat) : List Nat :=
  [((can_id >>> 8) &&& 0xFF) % 256,
   (can_id &&& 0xFF) % 256,
   ((raw >>> 8) &&& 0xFF) % 256,
   (raw &&& 0xFF) % 256]

/-- What the collaborators answer during one call of `loop()`: the code
returned by `twai_receive`, the contents of the local `message` after that
call, and the count returned by `JetsonSerial.write` (consulted only if
`write` is called: the source discards it). -/
structure LoopEnv where
  result : Int
  message : twai_message_t
  written : Nat
  deriving DecidableEq

/-- The function `loop()` of the sketch: one iteration of the bridge. -/
def loop (e : LoopEnv) : Option (List Event) :=
  let message := e.message
  let result := e.result
  if result = ESP_OK then do
    let dataEvents ← printData message.data message.data_length_code 0
    let can_id := message.identifier % 65536
    let raw ← raw_can_data message
    pure ([Event.twaiReceive 1000 result,
           Event.serialPrint (.text "CAN Message received: ID=0x"),
           Event.serialPrint (.hex message.identifier),
           Event.serialPrint (.text ", DLC="),
           Event.serialPrint (.dec message.data_length_code),
           Event.serialPrint (.text ", Data=")]
          ++ dataEvents
          ++ [Event.serialPrintln .empty,
              Event.serialPrint (.text "Sending to Jetson: CAN ID=0x"),
              Event.serialPrint (.hex can_id),
              Event.serialPrint (.text ", Raw Data=0x"),
              Event.serialPrintln (.hex raw),
              Event.jetsonWrite (uart_packet can_id raw) 4 e.written,
              Event.delay 10])
  else if result = ESP_ERR_TIMEOUT then
    some [Event.twaiReceive 1000 result, Event.delay 10]
  else
    some [Event.twaiReceive 1000 result,
          Event.serialPrint (.text "Failed to receive CAN message, error: "),
          Event.serialPrintln (.errName result),
          Event.delay 10]

/-! ## The run of the sketch -/

/-- Consecutive calls of `loop()`, one per element of the list. -/
def runLoops : List LoopEnv → Option (List Event)
  | [] => some []
  | e :: es => do
    let a ← loop e
    let b ← runLoops es
    pure (a ++ b)

/-- The Arduino entry contract, `setup(); for (;;) loop();`, cut after as
many calls of `loop()` as the list has elements. -/
def run (s : SetupEnv) (its : List LoopEnv) : Option (List Event) := do
  let b ← runLoops its
  pure (setup s ++ b)

/-! ## Observations of a trace -/

/-- The buffers handed to `JetsonSerial.write`, in order: the first `size`
bytes of each buffer. -/
def jetsonWrites : List Event → List (List Nat)
  | [] => []
  | Event.jetsonWrite buf size _ :: t => buf.take size :: jetsonWrites t
  | _ :: t => jetsonWrites t

/-- The bytes handed to the link to the host by any call on `JetsonSerial`:
`println(s)` sends the characters of `s` followed by CR LF, `write` sends
the first `size` bytes of its buffer. -/
def jetsonBytes : List Event → List Nat
  | [] => []
  | Event.jetsonPrintln s :: t => s.toList.map Char.toNat ++ [13, 10] ++ jetsonBytes t
  | Event.jetsonWrite buf size _ :: t => buf.take size ++ jetsonBytes t
  | _ :: t => jetsonBytes t

/-- The diagnostic output of a trace: the calls on the USB debug console. -/
def diagnostics : List Event → List Event
  | [] => []
  | Event.serialPrint p :: t => Event.serialPrint p :: diagnostics t
  | Event.serialPrintln p :: t => Event.serialPrintln p :: diagnostics t
  | _ :: t => diagnostics t

/-- The calls made to the TWAI driver. -/
def busCalls : List Event → List Event
  | [] => []
  | Event.twaiDriverInstall r :: t => Event.twaiDriverInstall r :: busCalls t
  | Event.twaiStart r :: t => Event.twaiStart r :: busCalls t
  | Event.twaiReceive ms r :: t => Event.twaiReceive ms r :: busCalls t
  | _ :: t => busCalls t

/-! ## The documented policy -/

/-- The payload reduction policy as the specification words it: for length
`L ≥ 2` the value `(payload[0] << 8) | payload[1]`, for `L = 1` the value
`payload[0]`, for `L = 0` the value `0`. -/
def specReducedValue (L : Nat) (payload : List Nat) : Nat :=
  if L ≥ 2 then (payload.getD 0 0 <<< 8) ||| payload.getD 1 0
  else if L = 1 then payload.getD 0 0
  else 0

/-- The wire packet as the specification words it, for a 16-bit identifier
`id` and a reduced value `value`. -/
def specPacket (id value : Nat) : List Nat :=
  [(id >>> 8) &&& 0xFF, id &&& 0xFF, (value >>> 8) &&& 0xFF, value &&& 0xFF]

/-- The decoding of a 4-byte packet named by the round-trip property:
`id = (b0 << 8) | b1`, `value = (b2 << 8) | b3`. -/
def decodePacket : List Nat → Option (Nat × Nat)
  | [b0, b1, b2, b3] => some ((b0 <<< 8) ||| b1, (b2 <<< 8) ||| b3)
  | _ => none

/-- The wire packet of a received frame: the specification's packet of the
low 16 bits of its identifier and of its reduced value. -/
def framePacket (m : twai_message_t) : List Nat :=
  specPacket (m.identifier % 65536) (specReducedValue m.data_length_code m.data)

/-- The iterations of a run whose receive reported success, as the frames
they received. -/
def receivedFrames (its : List LoopEnv) : List twai_message_t :=
  (its.filter (fun e => e.result = ESP_OK)).map (fun e => e.message)

/-- An iteration is within the data model when, if its receive reported
success, the message is a well-typed struct with a length code of at most 8. -/
def LoopEnv.inModel (e : LoopEnv) : Prop :=
  e.result = ESP_OK → e.message.wf ∧ e.message.data_length_code ≤ 8

instance (e : LoopEnv) : Decidable e.inModel := by
  unfold LoopEnv.inModel; infer_instance

/-! ## Normal forms of the traces -/

/-- The events of an iteration whose receive reported success, given the
events of the debug loop. -/
def okEvents (m : twai_message_t) (dataEvents : List Event) (written : Nat) : List Event :=
  [Event.twaiReceive 1000 ESP_OK,
   Event.serialPrint (.text "CAN Message received: ID=0x"),
   Event.serialPrint (.hex m.identifier),
   Event.serialPrint (.text ", DLC="),
   Event.serialPrint (.dec m.data_length_code),
   Event.serialPrint (.text ", Data=")]
  ++ dataEvents
  ++ [Event.serialPrintln .empty,
      Event.serialPrint (.text "Sending to Jetson: CAN ID=0x"),
      Event.serialPrint (.hex (m.identifier % 65536)),
      Event.serialPrint (.text ", Raw Data=0x"),
      Event.serialPrintln (.hex (specReducedValue m.data_length_code m.data)),
      Event.jetsonWrite (framePacket m) 4 written,
      Event.delay 10]

/-- The events of an iteration whose receive did not report success. -/
def failEvents (result : Int) : List Event :=
  if result = ESP_ERR_TIMEOUT then
    [Event.twaiReceive 1000 result, Event.delay 10]
  else
    [Event.twaiReceive 1000 result,
     Event.serialPrint (.text "Failed to receive CAN message, error: "),
     Event.serialPrintln (.errName result),
     Event.delay 10]

/-- The bytes of the line that `setup()` sends on the link to the host. -/
def bannerBytes : List Nat :=
  "ESP32 Connected to Jetson via UART".toList.map Char.toNat ++ [13, 10]

/-! ## Arithmetic of the narrowing and masking operations -/

theorem shl8_or_eq (a b : Nat) (hb : b < 256) : (a <<< 8) ||| b = a * 256 + b := by
  have h := Nat.mul_add_lt_is_or (i := 8) (b := b) (by simpa using hb) a
  rw [Nat.shiftLeft_eq, Nat.mul_comm a (2 ^ 8), ← h]

theorem and_ff_eq (x : Nat) : x &&& 0xFF = x % 256 := by
  have h := Nat.and_pow_two_sub_one_eq_mod x 8
  norm_num at h
  simpa using h

theorem shr8_eq (x : Nat) : x >>> 8 = x / 256 := by
  rw [Nat.shiftRight_eq_div_pow]

theorem uart_packet_eq_specPacket (can_id raw : Nat) :
    uart_packet can_id raw = specPacket can_id raw := by
  simp only [uart_packet, specPacket, and_ff_eq, Nat.mod_mod]

theorem decode_uart_packet (can_id raw : Nat) (hid : can_id < 65536) (hraw : raw < 65536) :
    decodePacket (uart_packet can_id raw) = some (can_id, raw) := by
  simp only [uart_packet, decodePacket, and_ff_eq, shr8_eq, Nat.mod_mod]
  rw [shl8_or_eq _ _ (Nat.mod_lt _ (by norm_num)), shl8_or_eq _ _ (Nat.mod_lt _ (by norm_num))]
  congr 2 <;> omega

/-- A well-typed message has its eight bytes. -/
theorem wf_data (m : twai_message_t) (hwf : m.wf) :
    ∃ d0 d1 d2 d3 d4 d5 d6 d7, m.data = [d0, d1, d2, d3, d4, d5, d6, d7] ∧
      d0 < 256 ∧ d1 < 256 := by
  obtain ⟨_, _, hlen, hb⟩ := hwf
  match h : m.data, hlen with
  | [d0, d1, d2, d3, d4, d5, d6, d7], _ =>
    refine ⟨d0, d1, d2, d3, d4, d5, d6, d7, rfl, ?_, ?_⟩
    · exact hb d0 (by simp [h])
    · exact hb d1 (by simp [h])

/-- On a well-typed message the block computing `raw_can_data` returns the
value of the documented policy, whatever the length code. -/
theorem raw_can_data_eq (m : twai_message_t) (hwf : m.wf) :
    raw_can_data m = some (specReducedValue m.data_length_code m.data) := by
  obtain ⟨d0, d1, d2, d3, d4, d5, d6, d7, hd, h0, h1⟩ := wf_data m hwf
  unfold raw_can_data specReducedValue
  rw [hd]
  by_cases h2 : m.data_length_code ≥ 2
  · have e1 : (d0 <<< 8) % 65536 = d0 <<< 8 := by
      rw [Nat.shiftLeft_eq]; norm_num; omega
    have e2 : ((d0 <<< 8) ||| d1) % 65536 = (d0 <<< 8) ||| d1 := by
      rw [shl8_or_eq _ _ h1]; omega
    simp [h2, e1, e2]
  · by_cases h3 : m.data_length_code = 1
    · have e3 : d0 % 65536 = d0 := by omega
      simp [h3, e3]
    · simp [h2, h3]

theorem specReducedValue_lt (L : Nat) (data : List Nat) (h0 : data.getD 0 0 < 256)
    (h1 : data.getD 1 0 < 256) : specReducedValue L data < 65536 := by
  unfold specReducedValue
  split
  · rw [shl8_or_eq _ _ h1]; omega
  · split <;> omega

/-! ## Observations distribute over concatenation -/

theorem jetsonWrites_append (a b : List Event) :
    jetsonWrites (a ++ b) = jetsonWrites a ++ jetsonWrites b := by
  induction a with
  | nil => rfl
  | cons e t ih => cases e <;> simp [jetsonWrites, ih]

theorem jetsonBytes_append (a b : List Event) :
    jetsonBytes (a ++ b) = jetsonBytes a ++ jetsonBytes b := by
  induction a with
  | nil => rfl
  | cons e t ih => cases e <;> simp [jetsonBytes, ih]

theorem diagnostics_append (a b : List Event) :
    diagnostics (a ++ b) = diagnostics a ++ diagnostics b := by
  induction a with
  | nil => rfl
  | cons e t ih => cases e <;> simp [diagnostics, ih]

theorem busCalls_append (a b : List Event) :
    busCalls (a ++ b) = busCalls a ++ busCalls b := by
  induction a with
  | nil => rfl
  | cons e t ih => cases e <;> simp [busCalls, ih]

/-! ## The debug loop over the payload -/

/-- The debug loop finishes when its reads stay inside the array, and then
performs calls on the debug console only. -/
theorem printData_some (data : List Nat) (n i : Nat) (h : i + n ≤ data.length) :
    ∃ evs, printData data n i = some evs ∧ jetsonWrites evs = [] ∧
      jetsonBytes evs = [] ∧ busCalls evs = [] := by
  induction n generalizing i with
  | zero => exact ⟨[], rfl, rfl, rfl, rfl⟩
  | succ n ih =>
    obtain ⟨rest, hrest, h1, h2, h3⟩ := ih (i + 1) (by omega)
    have hi : i < data.length := by omega
    refine ⟨Event.serialPrint (.hex data[i]) :: Event.serialPrint (.text " ") :: rest,
      ?_, ?_, ?_, ?_⟩
    · simp [printData, hrest, List.getElem?_eq_getElem hi]
    · simpa [jetsonWrites] using h1
    · simpa [jetsonBytes] using h2
    · simpa [busCalls] using h3

/-! ## One iteration -/

/-- An iteration with a successful receive of a frame of the data model
finishes, with the events of `okEvents`. -/
theorem loop_ok (m : twai_message_t) (written : Nat) (hwf : m.wf)
    (hL : m.data_length_code ≤ 8) :
    ∃ dataEvents, printData m.data m.data_length_code 0 = some dataEvents ∧
      jetsonWrites dataEvents = [] ∧ jetsonBytes dataEvents = [] ∧
      busCalls dataEvents = [] ∧
      loop ⟨ESP_OK, m, written⟩ = some (okEvents m dataEvents written) := by
  obtain ⟨dataEvents, hd, h1, h2, h3⟩ :=
    printData_some m.data m.data_length_code 0 (by have := hwf.2.2.1; omega)
  refine ⟨dataEvents, hd, h1, h2, h3, ?_⟩
  simp [loop, hd, raw_can_data_eq m hwf, okEvents, framePacket, uart_packet_eq_specPacket]

theorem framePacket_length (m : twai_message_t) : (framePacket m).length = 4 := rfl

theorem jetsonWrites_okEvents (m : twai_message_t) (dataEvents : List Event) (written : Nat)
    (h : jetsonWrites dataEvents = []) :
    jetsonWrites (okEvents m dataEvents written) = [framePacket m] := by
  simp [okEvents, jetsonWrites_append, jetsonWrites, h, framePacket, specPacket]

theorem jetsonBytes_okEvents (m : twai_message_t) (dataEvents : List Event) (written : Nat)
    (h : jetsonBytes dataEvents = []) :
    jetsonBytes (okEvents m dataEvents written) = framePacket m := by
  simp [okEvents, jetsonBytes_append, jetsonBytes, h, framePacket, specPacket]

theorem busCalls_okEvents (m : twai_message_t) (dataEvents : List Event) (written : Nat)
    (h : busCalls dataEvents = []) :
    busCalls (okEvents m dataEvents written) = [Event.twaiReceive 1000 ESP_OK] := by
  simp [okEvents, busCalls_append, busCalls, h]

theorem diagnostics_okEvents (m : twai_message_t) (dataEvents : List Event) (w w' : Nat) :
    diagnostics (okEvents m dataEvents w) = diagnostics (okEvents m dataEvents w') := by
  simp [okEvents, diagnostics_append, diagnostics]

theorem loop_fail (e : LoopEnv) (h : e.result ≠ ESP_OK) :
    loop e = some (failEvents e.result) := by
  unfold loop failEvents
  simp only [h, if_false]
  split <;> rfl

theorem failEvents_obs (result : Int) :
    jetsonWrites (failEvents result) = [] ∧ jetsonBytes (failEvents result) = [] ∧
      busCalls (failEvents result) = [Event.twaiReceive 1000 result] := by
  unfold failEvents
  split <;> simp [jetsonWrites, jetsonBytes, busCalls]

/-- Every iteration of the data model finishes; it hands the link the
packet of its frame if the receive reported success and nothing otherwise,
and calls the driver once, to receive. -/
theorem loop_inModel (e : LoopEnv) (h : e.inModel) :
    ∃ evs, loop e = some evs ∧
      jetsonWrites evs = (receivedFrames [e]).map framePacket ∧
      jetsonBytes evs = ((receivedFrames [e]).map framePacket).flatten ∧
      busCalls evs = [Event.twaiReceive 1000 e.result] := by
  by_cases hr : e.result = ESP_OK
  · obtain ⟨hwf, hL⟩ := h hr
    obtain ⟨d, _, h1, h2, h3, hloop⟩ := loop_ok e.message e.written hwf hL
    have he : e = ⟨ESP_OK, e.message, e.written⟩ := by
      cases e; simp at hr; simp [hr]
    refine ⟨okEvents e.message d e.written, by rw [← hloop, ← he], ?_, ?_, ?_⟩
    · simp [receivedFrames, hr, jetsonWrites_okEvents _ _ _ h1]
    · simp [receivedFrames, hr, jetsonBytes_okEvents _ _ _ h2]
    · simp [hr, busCalls_okEvents _ _ _ h3]
  · refine ⟨failEvents e.result, loop_fail e hr, ?_, ?_, ?_⟩
    · simp [receivedFrames, hr, (failEvents_obs e.result).1]
    · simp [receivedFrames, hr, (failEvents_obs e.result).2.1]
    · exact (failEvents_obs e.result).2.2

/-! ## Consecutive iterations -/

theorem runLoops_cons (e : LoopEnv) (es : List LoopEnv) (a b : List Event)
    (ha : loop e = some a) (hb : runLoops es = some b) :
    runLoops (e :: es) = some (a ++ b) := by
  simp [runLoops, ha, hb]

theorem runLoops_append (xs ys : List LoopEnv) :
    runLoops (xs ++ ys) = (do
      let a ← runLoops xs
      let b ← runLoops ys
      pure (a ++ b)) := by
  induction xs with
  | nil => cases h : runLoops ys <;> simp [runLoops, h]
  | cons x xs ih =>
    rw [List.cons_append]
    show (do let a ← loop x; let b ← runLoops (xs ++ ys); pure (a ++ b)) = _
    rw [ih]
    show _ = (do let a ← (do let a ← loop x; let b ← runLoops xs; pure (a ++ b))
                 let b ← runLoops ys; pure (a ++ b))
    cases loop x <;> cases runLoops xs <;> cases runLoops ys <;> simp

theorem receivedFrames_cons (e : LoopEnv) (es : List LoopEnv) :
    receivedFrames (e :: es) = receivedFrames [e] ++ receivedFrames es := by
  unfold receivedFrames
  by_cases h : e.result = ESP_OK <;> simp [List.filter_cons, h]

/-- Consecutive iterations of the data model all finish; the link receives
the packets of the frames received, in order, and the driver one receive
call per iteration. -/
theorem runLoops_inModel (its : List LoopEnv) (h : ∀ e ∈ its, e.inModel) :
    ∃ evs, runLoops its = some evs ∧
      jetsonWrites evs = (receivedFrames its).map framePacket ∧
      jetsonBytes evs = ((receivedFrames its).map framePacket).flatten ∧
      busCalls evs = its.map (fun e => Event.twaiReceive 1000 e.result) := by
  induction its with
  | nil => exact ⟨[], rfl, rfl, rfl, rfl⟩
  | cons e es ih =>
    obtain ⟨b, hb, hb1, hb2, hb3⟩ := ih (fun x hx => h x (List.mem_cons_of_mem _ hx))
    obtain ⟨a, ha, ha1, ha2, ha3⟩ := loop_inModel e (h e (List.mem_cons_self _ _))
    refine ⟨a ++ b, runLoops_cons e es a b ha hb, ?_, ?_, ?_⟩
    · rw [jetsonWrites_append, ha1, hb1, receivedFrames_cons e es, List.map_append]
    · rw [jetsonBytes_append, ha2, hb2, receivedFrames_cons e es, List.map_append,
        List.flatten_append]
    · rw [busCalls_append, ha3, hb3]; rfl

/-! ## `setup()` observed -/

theorem setup_obs (s : SetupEnv) :
    jetsonWrites (setup s) = [] ∧ jetsonBytes (setup s) = bannerBytes := by
  unfold setup
  constructor
  · have hrep : ∀ n, jetsonWrites (List.replicate n (Event.delay 10)) = [] := by
      intro n; induction n with
      | zero => rfl
      | succ n ih => simpa [List.replicate_succ, jetsonWrites] using ih
    simp only [jetsonWrites_append, hrep]
    split
    · split <;> simp [jetsonWrites]
    · simp [jetsonWrites]
  · have hrep : ∀ n, jetsonBytes (List.replicate n (Event.delay 10)) = [] := by
      intro n; induction n with
      | zero => rfl
      | succ n ih => simpa [List.replicate_succ, jetsonBytes] using ih
    simp only [jetsonBytes_append, hrep]
    split
    · split <;> simp [jetsonBytes, bannerBytes]
    · simp [jetsonBytes, bannerBytes]

theorem setup_busCalls (s : SetupEnv) :
    busCalls (setup s) =
      if s.installResult = ESP_OK then
        [Event.twaiDriverInstall s.installResult, Event.twaiStart s.startResult]
      else [Event.twaiDriverInstall s.installResult] := by
  unfold setup
  have hrep : ∀ n, busCalls (List.replicate n (Event.delay 10)) = [] := by
    intro n; induction n with
    | zero => rfl
    | succ n ih => simpa [List.replicate_succ, busCalls] using ih
  simp only [busCalls_append, hrep]
  split
  · split <;> simp [busCalls]
  · simp [busCalls]

theorem twaiStart_mem_busCalls (evs : List Event) (r : Int)
    (h : Event.twaiStart r ∈ evs) : Event.twaiStart r ∈ busCalls evs := by
  induction evs with
  | nil => simp at h
  | cons e t ih =>
    rcases List.mem_cons.mp h with h1 | h1
    · subst h1; simp [busCalls]
    · cases e <;> simp [busCalls, ih h1]

theorem jetsonWrite_mem_okEvents (m : twai_message_t) (d : List Event) (w : Nat) :
    Event.jetsonWrite (framePacket m) 4 w ∈ okEvents m d w := by
  simp [okEvents]

/-- A length code above 8 takes the debug loop of `loop()` outside the 8-byte
array (it reads `message.data[i]` for every `i` below the code), which is why
the statements about whole iterations are made for length codes of at most 8;
here with code 9. -/
theorem loop_overlong_code :
    loop ⟨ESP_OK, ⟨0x123, 9, [0x45, 0x67, 0, 0, 0, 0, 0, 0]⟩, 4⟩ = none := by
  decide

/-! ## Payload reduction -/

/-- C1: for every length code `L` (in 0..8, and any other 8-bit code) and
every content of the 8-byte payload array, the value `loop()` computes into `raw_can_data` is the value of
the documented policy: `(payload[0] << 8) | payload[1]` when `L ≥ 2`, the same
for every array with the same first two bytes and every other `L ≥ 2`;
`payload[0]`, with high byte 0, when `L = 1`, the same for every array with
the same first byte; and `0` when `L = 0`, for every array. -/
theorem raw_can_data_policy (m : twai_message_t) (hwf : m.wf) :
    raw_can_data m = some (specReducedValue m.data_length_code m.data) ∧
    (2 ≤ m.data_length_code →
      raw_can_data m = some ((m.data.getD 0 0 <<< 8) ||| m.data.getD 1 0) ∧
      ∀ m2 : twai_message_t, m2.wf → 2 ≤ m2.data_length_code →
        m2.data[0]? = m.data[0]? → m2.data[1]? = m.data[1]? →
        raw_can_data m2 = raw_can_data m) ∧
    (m.data_length_code = 1 →
      raw_can_data m = some (m.data.getD 0 0) ∧ m.data.getD 0 0 >>> 8 = 0 ∧
      ∀ m2 : twai_message_t, m2.wf → m2.data_length_code = 1 →
        m2.data[0]? = m.data[0]? → raw_can_data m2 = raw_can_data m) ∧
    (m.data_length_code = 0 →
      raw_can_data m = some 0 ∧
      ∀ m2 : twai_message_t, m2.wf → m2.data_length_code = 0 →
        raw_can_data m2 = raw_can_data m) := by
  have hm := raw_can_data_eq m hwf
  obtain ⟨d0, d1, d2, d3, d4, d5, d6, d7, hd, h0, h1⟩ := wf_data m hwf
  refine ⟨hm, ?_, ?_, ?_⟩
  · intro h2
    refine ⟨by rw [hm]; simp [specReducedValue, h2], ?_⟩
    intro m2 hwf2 h22 e0 e1
    obtain ⟨c0, c1, c2, c3, c4, c5, c6, c7, hc, _, _⟩ := wf_data m2 hwf2
    rw [hm, raw_can_data_eq m2 hwf2]
    rw [hd, hc] at e0 e1
    simp at e0 e1
    simp [specReducedValue, h2, h22, hd, hc, e0, e1]
  · intro h2
    refine ⟨by rw [hm]; simp [specReducedValue, h2], ?_, ?_⟩
    · rw [hd, shr8_eq]; simp; omega
    · intro m2 hwf2 h22 e0
      obtain ⟨c0, c1, c2, c3, c4, c5, c6, c7, hc, _, _⟩ := wf_data m2 hwf2
      rw [hm, raw_can_data_eq m2 hwf2]
      rw [hd, hc] at e0
      simp at e0
      simp [specReducedValue, h2, h22, hd, hc, e0]
  · intro h2
    refine ⟨by rw [hm]; simp [specReducedValue, h2], ?_⟩
    intro m2 hwf2 h22
    rw [hm, raw_can_data_eq m2 hwf2]
    simp [specReducedValue, h2, h22]

/-- C1, at payload `[0xAB, 0xCD, 0xFF, 0xFF]` with `L = 4`: the reduced value
is `0xABCD`. -/
theorem raw_can_data_policy_witness :
    (twai_message_t.mk 0x123 4 [0xAB, 0xCD, 0xFF, 0xFF, 0, 0, 0, 0]).wf ∧
    raw_can_data ⟨0x123, 4, [0xAB, 0xCD, 0xFF, 0xFF, 0, 0, 0, 0]⟩ = some 0xABCD :=
  ⟨by decide,
   (raw_can_data_policy ⟨0x123, 4, [0xAB, 0xCD, 0xFF, 0xFF, 0, 0, 0, 0]⟩
      (by decide)).1.trans (by decide)⟩

/-- C10: for every value of the 8-bit length code, 9..255 included, the
block computing `raw_can_data` reads inside the 8-byte array and returns a
16-bit value; it reads no index above 1 when the code is at least 2 (it
returns the same on the array cut to its first two bytes, where a read at
index 2 or more would fail), no index above 0 when the code is 1, and none
when the code is 0; and every code `≥ 2` yields
`(payload[0] << 8) | payload[1]`. -/
theorem raw_can_data_reads (m : twai_message_t) (hwf : m.wf) :
    (∃ v, raw_can_data m = some v ∧ v < 65536) ∧
    (2 ≤ m.data_length_code →
      raw_can_data m = some ((m.data.getD 0 0 <<< 8) ||| m.data.getD 1 0) ∧
      raw_can_data ⟨m.identifier, m.data_length_code, m.data.take 2⟩ = raw_can_data m) ∧
    (m.data_length_code = 1 →
      raw_can_data ⟨m.identifier, m.data_length_code, m.data.take 1⟩ = raw_can_data m) ∧
    (m.data_length_code = 0 →
      raw_can_data ⟨m.identifier, m.data_length_code, []⟩ = raw_can_data m) := by
  have hm := raw_can_data_eq m hwf
  obtain ⟨d0, d1, d2, d3, d4, d5, d6, d7, hd, h0, h1⟩ := wf_data m hwf
  refine ⟨⟨_, hm, ?_⟩, ?_, ?_, ?_⟩
  · exact specReducedValue_lt _ _ (by rw [hd]; simpa using h0) (by rw [hd]; simpa using h1)
  · intro h2
    refine ⟨by rw [hm]; simp [specReducedValue, h2], ?_⟩
    simp [raw_can_data, h2, hd]
  · intro h2
    simp [raw_can_data, h2, hd]
  · intro h2
    simp [raw_can_data, h2]

/-- C10, at length code 200 (outside the range of the data model): the
reduction still returns `(payload[0] << 8) | payload[1]`. -/
theorem raw_can_data_reads_witness :
    (twai_message_t.mk 0x7FF 200 [0x12, 0x34, 1, 2, 3, 4, 5, 6]).wf ∧
    raw_can_data ⟨0x7FF, 200, [0x12, 0x34]⟩ = some 0x1234 ∧
    raw_can_data ⟨0x7FF, 200, [0x12, 0x34, 1, 2, 3, 4, 5, 6]⟩ = some 0x1234 :=
  ⟨by decide, by decide,
   ((raw_can_data_reads ⟨0x7FF, 200, [0x12, 0x34, 1, 2, 3, 4, 5, 6]⟩
      (by decide)).2.1 (by decide)).1.trans (by decide)⟩

/-! ## Packet encoding -/

/-- C2: for every frame identifier (of up to 29 bits, or wider) and every
16-bit reduced value, decoding the four bytes `loop()` stores in `uart_packet` (built from
`can_id = (uint16_t) identifier` and the value) as `(b0 << 8) | b1` and
`(b2 << 8) | b3` gives the identifier modulo `2^16` and the value. -/
theorem packet_roundtrip (identifier value : Nat) (hv : value < 65536) :
    decodePacket (uart_packet (identifier % 65536) value)
      = some (identifier % 65536, value) :=
  decode_uart_packet _ _ (Nat.mod_lt _ (by norm_num)) hv

/-- C2, at the 29-bit identifier `0x1ABC0123` and the value `0x4567`. -/
theorem packet_roundtrip_witness :
    uart_packet (0x1ABC0123 % 65536) 0x4567 = [0x01, 0x23, 0x45, 0x67] ∧
    decodePacket (uart_packet (0x1ABC0123 % 65536) 0x4567) = some (0x0123, 0x4567) :=
  ⟨by decide, (packet_roundtrip 0x1ABC0123 0x4567 (by norm_num)).trans (by decide)⟩

/-! ## One iteration of the bridge -/

/-- C3: for every successfully received frame with an identifier of up to 29
bits (or up to 32), a length code in 0..8 and any payload, one call of `loop()` finishes and
hands `JetsonSerial.write` exactly one buffer, of exactly 4 bytes:
`[(id16 >> 8) & 0xFF, id16 & 0xFF, (v >> 8) & 0xFF, v & 0xFF]` with `id16` the
identifier modulo `2^16` and `v` the value computed into `raw_can_data`; these
are all the bytes handed to the link; and a frame that differs only in bits 16
and above of the identifier gives the same buffer. -/
theorem loop_writes_one_packet (m : twai_message_t) (written : Nat) (hwf : m.wf)
    (hL : m.data_length_code ≤ 8) :
    ∃ evs v, loop ⟨ESP_OK, m, written⟩ = some evs ∧ raw_can_data m = some v ∧
      jetsonWrites evs =
        [[((m.identifier % 65536) >>> 8) &&& 0xFF, (m.identifier % 65536) &&& 0xFF,
          (v >>> 8) &&& 0xFF, v &&& 0xFF]] ∧
      jetsonBytes evs =
        [((m.identifier % 65536) >>> 8) &&& 0xFF, (m.identifier % 65536) &&& 0xFF,
          (v >>> 8) &&& 0xFF, v &&& 0xFF] ∧
      v = specReducedValue m.data_length_code m.data ∧
      ∀ (hi : Nat) (w2 : Nat), m.identifier % 65536 + 65536 * hi < 2 ^ 29 →
        ∃ evs2, loop ⟨ESP_OK, ⟨m.identifier % 65536 + 65536 * hi, m.data_length_code, m.data⟩,
            w2⟩ = some evs2 ∧ jetsonWrites evs2 = jetsonWrites evs := by
  obtain ⟨d, hd, h1, h2, _, hloop⟩ := loop_ok m written hwf hL
  refine ⟨_, _, hloop, raw_can_data_eq m hwf, jetsonWrites_okEvents _ _ _ h1,
    jetsonBytes_okEvents _ _ _ h2, rfl, ?_⟩
  intro hi w2 hlt
  have hwf2 : (twai_message_t.mk (m.identifier % 65536 + 65536 * hi)
      m.data_length_code m.data).wf :=
    ⟨by show m.identifier % 65536 + 65536 * hi < 2 ^ 32; omega, hwf.2⟩
  obtain ⟨d2, _, k1, _, _, hloop2⟩ := loop_ok _ w2 hwf2 hL
  refine ⟨_, hloop2, ?_⟩
  rw [jetsonWrites_okEvents _ _ _ k1, jetsonWrites_okEvents _ _ _ h1]
  simp [framePacket, Nat.add_mul_mod_self_left]

/-- C3, at the two scenarios of the specification: identifier `0x123`,
payload `[0x45, 0x67]`, `L = 2` gives `[0x01, 0x23, 0x45, 0x67]`; identifier
`0x7FF`, payload `[0x09]`, `L = 1` gives `[0x07, 0xFF, 0x00, 0x09]`. -/
theorem loop_writes_one_packet_witness :
    (∃ evs, loop ⟨ESP_OK, ⟨0x123, 2, [0x45, 0x67, 0, 0, 0, 0, 0, 0]⟩, 4⟩ = some evs ∧
      jetsonWrites evs = [[0x01, 0x23, 0x45, 0x67]]) ∧
    (∃ evs, loop ⟨ESP_OK, ⟨0x7FF, 1, [0x09, 0, 0, 0, 0, 0, 0, 0]⟩, 4⟩ = some evs ∧
      jetsonWrites evs = [[0x07, 0xFF, 0x00, 0x09]]) := by
  constructor
  · obtain ⟨evs, v, h, hv, hw, _⟩ := loop_writes_one_packet
      ⟨0x123, 2, [0x45, 0x67, 0, 0, 0, 0, 0, 0]⟩ 4 (by decide) (by decide)
    have : v = 0x4567 := Option.some.inj (hv.symm.trans (by decide))
    subst this
    exact ⟨evs, h, hw.trans (by decide)⟩
  · obtain ⟨evs, v, h, hv, hw, _⟩ := loop_writes_one_packet
      ⟨0x7FF, 1, [0x09, 0, 0, 0, 0, 0, 0, 0]⟩ 4 (by decide) (by decide)
    have : v = 0x09 := Option.some.inj (hv.symm.trans (by decide))
    subst this
    exact ⟨evs, h, hw.trans (by decide)⟩

/-- C4: for every receive outcome other than success (the timeout code or
any other code), one call of `loop()` finishes and hands nothing to the
serial link; and in any sequence of iterations, the iterations before and
after it perform exactly the events they perform without it, so the writes to
the link are those of the sequence without it. -/
theorem failed_receive_writes_nothing (e : LoopEnv) (h : e.result ≠ ESP_OK) :
    ∃ evs, loop e = some evs ∧ jetsonWrites evs = [] ∧ jetsonBytes evs = [] ∧
      (∀ pre post : List LoopEnv,
        runLoops (pre ++ e :: post) = (do
          let a ← runLoops pre
          let c ← runLoops post
          pure (a ++ evs ++ c))) ∧
      (∀ pre post : List LoopEnv,
        (runLoops (pre ++ e :: post)).map jetsonWrites
          = (runLoops (pre ++ post)).map jetsonWrites) := by
  have hl := loop_fail e h
  obtain ⟨h1, h2, _⟩ := failEvents_obs e.result
  have key : ∀ pre post : List LoopEnv,
      runLoops (pre ++ e :: post) = (do
        let a ← runLoops pre
        let c ← runLoops post
        pure (a ++ failEvents e.result ++ c)) := by
    intro pre post
    rw [runLoops_append]
    show (do let a ← runLoops pre
             let b ← (do let x ← loop e; let y ← runLoops post; pure (x ++ y))
             pure (a ++ b)) = _
    rw [hl]
    cases runLoops pre <;> cases runLoops post <;> simp
  refine ⟨_, hl, h1, h2, key, ?_⟩
  intro pre post
  rw [key, runLoops_append]
  cases runLoops pre <;> cases runLoops post <;> simp [jetsonWrites_append, h1]

/-- C4, at a timeout and at the driver error `ESP_ERR_INVALID_STATE`
(`0x103`) between two received frames. -/
theorem failed_receive_writes_nothing_witness :
    (loop ⟨ESP_ERR_TIMEOUT, ⟨0, 0, [0, 0, 0, 0, 0, 0, 0, 0]⟩, 0⟩).map jetsonBytes = some [] ∧
    (∃ evs, loop ⟨0x103, ⟨0x123, 2, [0x45, 0x67, 0, 0, 0, 0, 0, 0]⟩, 0⟩ = some evs ∧
      jetsonBytes evs = [] ∧
      (runLoops ([⟨ESP_OK, ⟨0x123, 2, [0x45, 0x67, 0, 0, 0, 0, 0, 0]⟩, 4⟩]
          ++ ⟨0x103, ⟨0x123, 2, [0x45, 0x67, 0, 0, 0, 0, 0, 0]⟩, 0⟩
          :: [⟨ESP_OK, ⟨0x7FF, 1, [0x09, 0, 0, 0, 0, 0, 0, 0]⟩, 4⟩])).map jetsonWrites
        = some [[0x01, 0x23, 0x45, 0x67], [0x07, 0xFF, 0x00, 0x09]]) := by
  constructor
  · obtain ⟨evs, h, _, hb, _⟩ := failed_receive_writes_nothing
      ⟨ESP_ERR_TIMEOUT, ⟨0, 0, [0, 0, 0, 0, 0, 0, 0, 0]⟩, 0⟩ (by decide)
    rw [h]; exact congrArg some hb
  · obtain ⟨evs, h, _, hb, _, hr⟩ := failed_receive_writes_nothing
      ⟨0x103, ⟨0x123, 2, [0x45, 0x67, 0, 0, 0, 0, 0, 0]⟩, 0⟩ (by decide)
    exact ⟨evs, h, hb, (hr _ _).trans (by decide)⟩

/-! ## The run of the bridge -/

/-- C5: for every finite sequence of `N` successfully received frames of the
data model, `setup()` followed by one call of `loop()` per frame finishes and
makes exactly `N` calls of `JetsonSerial.write`, the `k`-th with the 4-byte
packet of the `k`-th frame. -/
theorem frames_to_packets (s : SetupEnv) (its : List LoopEnv)
    (h : ∀ e ∈ its, e.result = ESP_OK ∧ e.message.wf ∧ e.message.data_length_code ≤ 8) :
    ∃ evs, run s its = some evs ∧
      jetsonWrites evs = its.map (fun e => framePacket e.message) ∧
      (jetsonWrites evs).length = its.length ∧
      ∀ k (hk : k < its.length), (jetsonWrites evs)[k]? = some (framePacket its[k].message) := by
  obtain ⟨b, hb, hb1, _, _⟩ := runLoops_inModel its (fun e he _ => (h e he).2)
  have hall : receivedFrames its = its.map (fun e => e.message) := by
    unfold receivedFrames
    rw [List.filter_eq_self.mpr]
    intro e he
    simpa using (h e he).1
  have hw : jetsonWrites (setup s ++ b) = its.map (fun e => framePacket e.message) := by
    rw [jetsonWrites_append, (setup_obs s).1, hb1, hall]
    simp
  refine ⟨setup s ++ b, by simp [run, hb], hw, by rw [hw, List.length_map], ?_⟩
  intro k hk
  rw [hw]
  simp [List.getElem?_eq_getElem hk]

/-- C5, at three frames: three packets, in the order of the frames. -/
theorem frames_to_packets_witness :
    (run ⟨0, ESP_OK, ESP_OK⟩
      [⟨ESP_OK, ⟨0x123, 2, [0x45, 0x67, 0, 0, 0, 0, 0, 0]⟩, 4⟩,
       ⟨ESP_OK, ⟨0x7FF, 1, [0x09, 0, 0, 0, 0, 0, 0, 0]⟩, 4⟩,
       ⟨ESP_OK, ⟨0x000, 0, [0, 0, 0, 0, 0, 0, 0, 0]⟩, 4⟩]).map jetsonWrites
      = some [[0x01, 0x23, 0x45, 0x67], [0x07, 0xFF, 0x00, 0x09], [0, 0, 0, 0]] := by
  obtain ⟨evs, h, hw, _⟩ := frames_to_packets ⟨0, ESP_OK, ESP_OK⟩
      [⟨ESP_OK, ⟨0x123, 2, [0x45, 0x67, 0, 0, 0, 0, 0, 0]⟩, 4⟩,
       ⟨ESP_OK, ⟨0x7FF, 1, [0x09, 0, 0, 0, 0, 0, 0, 0]⟩, 4⟩,
       ⟨ESP_OK, ⟨0x000, 0, [0, 0, 0, 0, 0, 0, 0, 0]⟩, 4⟩] (by decide)
  rw [h]
  exact congrArg some (hw.trans (by decide))

/-- C6 fails as stated: in the run of `setup()` with a driver that installs
and starts, followed by no iteration at all, no frame was received and no
packet written, yet the link to the host has carried the 36 bytes of the text
line `ESP32 Connected to Jetson via UART`. -/
theorem link_carries_banner :
    ∃ evs, run ⟨0, ESP_OK, ESP_OK⟩ [] = some evs ∧
      receivedFrames [] = [] ∧ jetsonWrites evs = [] ∧
      Event.jetsonPrintln "ESP32 Connected to Jetson via UART" ∈ evs ∧
      jetsonBytes evs = "ESP32 Connected to Jetson via UART".toList.map Char.toNat ++ [13, 10] ∧
      (jetsonBytes evs).length = 36 :=
  ⟨setup ⟨0, ESP_OK, ESP_OK⟩, by decide, by decide, by decide, by decide, by decide, by decide⟩

/-- C6 as amended: over the whole run (`setup()` followed by any number of
`loop()` iterations of the data model), the bytes handed to the link to the
host are the text line `ESP32 Connected to Jetson via UART` with its CR LF,
sent once by `setup()`, followed by the 4-byte wire packets of the frames
received, in order, and nothing else. -/
theorem link_bytes (s : SetupEnv) (its : List LoopEnv) (h : ∀ e ∈ its, e.inModel) :
    ∃ evs, run s its = some evs ∧
      jetsonBytes evs = bannerBytes ++ ((receivedFrames its).map framePacket).flatten ∧
      (∀ p ∈ (receivedFrames its).map framePacket, p.length = 4) := by
  obtain ⟨b, hb, _, hb2, _⟩ := runLoops_inModel its h
  refine ⟨setup s ++ b, by simp [run, hb], ?_, ?_⟩
  · rw [jetsonBytes_append, (setup_obs s).2, hb2]
  · intro p hp
    obtain ⟨m, _, rfl⟩ := List.mem_map.mp hp
    rfl

/-- C6 as amended, at a run with a received frame, a timeout and a second
received frame. -/
theorem link_bytes_witness :
    (run ⟨0, ESP_OK, ESP_OK⟩
      [⟨ESP_OK, ⟨0x123, 2, [0x45, 0x67, 0, 0, 0, 0, 0, 0]⟩, 4⟩,
       ⟨ESP_ERR_TIMEOUT, ⟨0, 0, [0, 0, 0, 0, 0, 0, 0, 0]⟩, 0⟩,
       ⟨ESP_OK, ⟨0x7FF, 1, [0x09, 0, 0, 0, 0, 0, 0, 0]⟩, 4⟩]).map jetsonBytes
      = some (bannerBytes ++ [0x01, 0x23, 0x45, 0x67, 0x07, 0xFF, 0x00, 0x09]) := by
  obtain ⟨evs, h, hw, _⟩ := link_bytes ⟨0, ESP_OK, ESP_OK⟩
      [⟨ESP_OK, ⟨0x123, 2, [0x45, 0x67, 0, 0, 0, 0, 0, 0]⟩, 4⟩,
       ⟨ESP_ERR_TIMEOUT, ⟨0, 0, [0, 0, 0, 0, 0, 0, 0, 0]⟩, 0⟩,
       ⟨ESP_OK, ⟨0x7FF, 1, [0x09, 0, 0, 0, 0, 0, 0, 0]⟩, 4⟩] (by decide)
  rw [h]
  exact congrArg some (hw.trans (by decide))

/-! ## Failures -/

/-- C7 fails as stated: when `twai_driver_install` fails (here with
`ESP_ERR_NO_MEM`, `0x101`), `setup()` returns and the first call of `loop()`
still runs and attempts a receive on the bus (answered here with
`ESP_ERR_INVALID_STATE`, `0x103`). -/
theorem receive_attempted_after_failed_install :
    ∃ evs, run ⟨0, 0x101, 0⟩ [⟨0x103, ⟨0, 0, [0, 0, 0, 0, 0, 0, 0, 0]⟩, 0⟩] = some evs ∧
      busCalls evs = [Event.twaiDriverInstall 0x101, Event.twaiReceive 1000 0x103] ∧
      Event.twaiReceive 1000 0x103 ∈ evs :=
  ⟨_, rfl, by decide, by decide⟩

/-- C7 as amended: if `twai_driver_install` fails in `setup()`, `setup()`
returns at once: over the whole run `twai_start` is never called and the
install is called once and never retried; the calls of `loop()` still run
afterwards, each attempting exactly one receive, and a packet is written only
by an iteration whose receive reports success. -/
theorem install_failure (s : SetupEnv) (its : List LoopEnv)
    (hfail : s.installResult ≠ ESP_OK) (h : ∀ e ∈ its, e.inModel) :
    ∃ evs, run s its = some evs ∧
      busCalls evs = Event.twaiDriverInstall s.installResult ::
        its.map (fun e => Event.twaiReceive 1000 e.result) ∧
      (∀ r, Event.twaiStart r ∉ evs) ∧
      jetsonWrites evs = (receivedFrames its).map framePacket ∧
      ((∀ e ∈ its, e.result ≠ ESP_OK) → jetsonWrites evs = []) := by
  obtain ⟨b, hb, hb1, _, hb3⟩ := runLoops_inModel its h
  have hbus : busCalls (setup s ++ b) = Event.twaiDriverInstall s.installResult ::
      its.map (fun e => Event.twaiReceive 1000 e.result) := by
    rw [busCalls_append, setup_busCalls, if_neg hfail, hb3]; rfl
  have hw : jetsonWrites (setup s ++ b) = (receivedFrames its).map framePacket := by
    rw [jetsonWrites_append, (setup_obs s).1, hb1]; rfl
  refine ⟨setup s ++ b, by simp [run, hb], hbus, ?_, hw, ?_⟩
  · intro r hr
    have := twaiStart_mem_busCalls _ r hr
    rw [hbus] at this
    simp at this
  · intro hall
    rw [hw]
    have : receivedFrames its = [] := by
      unfold receivedFrames
      rw [List.filter_eq_nil_iff.mpr]
      · rfl
      · intro e he
        simpa using hall e he
    rw [this]; rfl

/-- C7 as amended, at an install failing with `ESP_ERR_NO_MEM` followed by two
iterations whose receive answers `ESP_ERR_INVALID_STATE`. -/
theorem install_failure_witness :
    ∃ evs, run ⟨0, 0x101, 0⟩
        [⟨0x103, ⟨0, 0, [0, 0, 0, 0, 0, 0, 0, 0]⟩, 0⟩,
         ⟨0x103, ⟨0, 0, [0, 0, 0, 0, 0, 0, 0, 0]⟩, 0⟩] = some evs ∧
      busCalls evs = [Event.twaiDriverInstall 0x101, Event.twaiReceive 1000 0x103,
        Event.twaiReceive 1000 0x103] ∧
      jetsonWrites evs = [] := by
  obtain ⟨evs, h, hb, _, _, hw⟩ := install_failure ⟨0, 0x101, 0⟩
      [⟨0x103, ⟨0, 0, [0, 0, 0, 0, 0, 0, 0, 0]⟩, 0⟩,
       ⟨0x103, ⟨0, 0, [0, 0, 0, 0, 0, 0, 0, 0]⟩, 0⟩] (by decide) (by decide)
  exact ⟨evs, h, hb, hw (by decide)⟩

/-- C8: an iteration with a successful receive makes exactly one call of
`JetsonSerial.write`, with the packet of its frame, whatever count that call
returns (`e.written`, below 4 for a failed write); the iterations after it
perform exactly the events they perform on their own, and the writes of the
later iterations are the packets of the frames they receive themselves: the
packet is not written again. -/
theorem write_failure_no_retry (e : LoopEnv) (rest : List LoopEnv)
    (hok : e.result = ESP_OK) (hwf : e.message.wf) (hL : e.message.data_length_code ≤ 8)
    (hrest : ∀ x ∈ rest, x.inModel) :
    ∃ evs evsRest, loop e = some evs ∧
      Event.jetsonWrite (framePacket e.message) 4 e.written ∈ evs ∧
      jetsonWrites evs = [framePacket e.message] ∧
      runLoops rest = some evsRest ∧
      runLoops (e :: rest) = some (evs ++ evsRest) ∧
      jetsonWrites evsRest = (receivedFrames rest).map framePacket ∧
      jetsonWrites (evs ++ evsRest)
        = framePacket e.message :: (receivedFrames rest).map framePacket := by
  obtain ⟨d, _, h1, _, _, hloop⟩ := loop_ok e.message e.written hwf hL
  have he : e = ⟨ESP_OK, e.message, e.written⟩ := by
    cases e; simp at hok; simp [hok]
  rw [← he] at hloop
  obtain ⟨b, hb, hb1, _, _⟩ := runLoops_inModel rest hrest
  have hw := jetsonWrites_okEvents e.message d e.written h1
  refine ⟨_, b, hloop, jetsonWrite_mem_okEvents _ _ _, hw, hb,
    runLoops_cons e rest _ b hloop hb, hb1, ?_⟩
  rw [jetsonWrites_append, hw, hb1]; rfl

/-- C8, at a frame whose write returns 0 (nothing written), followed by a
second frame: one write per iteration, the first packet written once. -/
theorem write_failure_no_retry_witness :
    (runLoops [⟨ESP_OK, ⟨0x123, 2, [0x45, 0x67, 0, 0, 0, 0, 0, 0]⟩, 0⟩,
       ⟨ESP_OK, ⟨0x7FF, 1, [0x09, 0, 0, 0, 0, 0, 0, 0]⟩, 4⟩]).map jetsonWrites
      = some [[0x01, 0x23, 0x45, 0x67], [0x07, 0xFF, 0x00, 0x09]] := by
  obtain ⟨evs, evsRest, _, _, _, _, hrun, _, hw⟩ := write_failure_no_retry
      ⟨ESP_OK, ⟨0x123, 2, [0x45, 0x67, 0, 0, 0, 0, 0, 0]⟩, 0⟩
      [⟨ESP_OK, ⟨0x7FF, 1, [0x09, 0, 0, 0, 0, 0, 0, 0]⟩, 4⟩]
      (by decide) (by decide) (by decide) (by decide)
  rw [hrun]
  exact congrArg some (hw.trans (by decide))

/-- C9 fails as stated: for the frame with identifier `0x123` and payload
`[0x45, 0x67]`, the iteration whose write returns 0 (nothing written) and the
iteration whose write returns 4 both finish, with the same diagnostic
output. -/
theorem write_failure_not_reported :
    (loop ⟨ESP_OK, ⟨0x123, 2, [0x45, 0x67, 0, 0, 0, 0, 0, 0]⟩, 0⟩).isSome = true ∧
    (loop ⟨ESP_OK, ⟨0x123, 2, [0x45, 0x67, 0, 0, 0, 0, 0, 0]⟩, 0⟩).map diagnostics
      = (loop ⟨ESP_OK, ⟨0x123, 2, [0x45, 0x67, 0, 0, 0, 0, 0, 0]⟩, 4⟩).map diagnostics :=
  ⟨by decide, by decide⟩

/-- C9 as amended: the count returned by `JetsonSerial.write` is discarded:
an iteration with a successful receive produces the same diagnostic output,
and hands the same packet to the link, whatever the write returns; a failed
write is not reported. -/
theorem write_result_discarded (m : twai_message_t) (w w2 : Nat) (hwf : m.wf)
    (hL : m.data_length_code ≤ 8) :
    ∃ evs evs2, loop ⟨ESP_OK, m, w⟩ = some evs ∧ loop ⟨ESP_OK, m, w2⟩ = some evs2 ∧
      diagnostics evs = diagnostics evs2 ∧ jetsonWrites evs = jetsonWrites evs2 := by
  obtain ⟨d, hd, h1, _, _, hloop⟩ := loop_ok m w hwf hL
  obtain ⟨d2, hd2, _, _, _, hloop2⟩ := loop_ok m w2 hwf hL
  have hdd : d2 = d := Option.some.inj (hd2.symm.trans hd)
  subst hdd
  exact ⟨_, _, hloop, hloop2, diagnostics_okEvents _ _ _ _,
    by rw [jetsonWrites_okEvents _ _ _ h1, jetsonWrites_okEvents _ _ _ h1]⟩

/-- C9 as amended, at the frame `0x123` / `[0x45, 0x67]` with a write that
returns 0 and one that returns 4. -/
theorem write_result_discarded_witness :
    ∃ evs evs2, loop ⟨ESP_OK, ⟨0x123, 2, [0x45, 0x67, 0, 0, 0, 0, 0, 0]⟩, 0⟩ = some evs ∧
      loop ⟨ESP_OK, ⟨0x123, 2, [0x45, 0x67, 0, 0, 0, 0, 0, 0]⟩, 4⟩ = some evs2 ∧
      diagnostics evs = diagnostics evs2 ∧ jetsonWrites evs = jetsonWrites evs2 :=
  write_result_discarded ⟨0x123, 2, [0x45, 0x67, 0, 0, 0, 0, 0, 0]⟩ 0 4 (by decide) (by decide)

end CanBridge
